import Mathlib

/-!
Verification of the MicroSocks SOCKS5 server (`sockssrv.c`) against its
natural-language specification.  The C code is shallowly embedded: byte
buffers become `List Nat` (each element a byte value), C functions become
Lean functions, the external libc capabilities (`inet_ntop`, `inet_pton`,
DNS resolution, socket calls) become explicit oracle parameters, and the
event-driven relay loops become trace-producing step functions.
-/

namespace MicroSocks

/-! ## Protocol constants (from `sockssrv.h` / RFC 1928) -/

def VERSION : Nat := 5
def RSV : Nat := 0
def CONNECT : Nat := 1
def UDP_ASSOCIATE : Nat := 3

def SOCKS5_IPV4 : Nat := 1
def SOCKS5_DNS : Nat := 3
def SOCKS5_IPV6 : Nat := 4

def EC_SUCCESS : Nat := 0
def EC_GENERAL_FAILURE : Nat := 1
def EC_NOT_ALLOWED : Nat := 2
def EC_NET_UNREACHABLE : Nat := 3
def EC_HOST_UNREACHABLE : Nat := 4
def EC_CONN_REFUSED : Nat := 5
def EC_TTL_EXPIRED : Nat := 6
def EC_COMMAND_NOT_SUPPORTED : Nat := 7
def EC_ADDRESSTYPE_NOT_SUPPORTED : Nat := 8

def AM_NO_AUTH : Nat := 0
def AM_USERNAME : Nat := 2
def AM_INVALID : Nat := 255

def TCP_SOCKET : Nat := 0
def UDP_SOCKET : Nat := 1

/-- The value of a C string stored in a byte buffer: the bytes up to the
first NUL.  All string operations in the C code (`strcmp`, `strlen`,
`strncpy`) see exactly this. -/
def cstr (l : List Nat) : List Nat := l.takeWhile (· ≠ 0)

/-! ## Data model -/

/-- `struct socks5_addrport`: an address type tag, the address as the
contents of a C string (`char addr[MAX_DNS_LEN+1]`), and a port. -/
structure Socks5Addrport where
  type : Nat
  addr : List Nat
  port : Nat
deriving DecidableEq, Repr

/-- `union sockaddr_union`: a resolved transport endpoint. -/
structure SockAddrU where
  af : Nat
  addrBytes : List Nat
  port : Nat
deriving DecidableEq, Repr

/-- `compareSocks5Addrport` (returns `true` where the C code returns 0):
same type, `strcmp`-equal address strings, same port. -/
def compareSocks5Addrport (a b : Socks5Addrport) : Bool :=
  a.type == b.type && cstr a.addr == cstr b.addr && a.port == b.port

/-! ## Wire codec: `parse_addrport` -/

/-- `parse_addrport`: parse `[atyp, addr..., port_hi, port_lo]`.
`ntop4`/`ntop6` model `inet_ntop` for AF_INET/AF_INET6 (total: with a
256-byte buffer the conversion of 4/16 raw bytes always succeeds).  The
stored address is the C-string the code builds in `namebuf` and copies
with `strncpy(addr, namebuf, sizeof addr - 1)`.  Returns the parsed
addrport and the number of bytes consumed (`minlen`), or the error code. -/
def parse_addrport (ntop4 ntop6 : List Nat → List Nat) (buf : List Nat) :
    Except Nat (Socks5Addrport × Nat) :=
  if buf.length < 2 then .error EC_GENERAL_FAILURE
  else if buf.getD 0 0 = SOCKS5_IPV6 then
    if buf.length < 1 + 16 + 2 then .error EC_GENERAL_FAILURE
    else .ok ({ type := buf.getD 0 0,
                addr := (cstr (ntop6 ((buf.drop 1).take 16))).take 255,
                port := (buf.getD 17 0) * 256 + buf.getD 18 0 }, 19)
  else if buf.getD 0 0 = SOCKS5_IPV4 then
    if buf.length < 1 + 4 + 2 then .error EC_GENERAL_FAILURE
    else .ok ({ type := buf.getD 0 0,
                addr := (cstr (ntop4 ((buf.drop 1).take 4))).take 255,
                port := (buf.getD 5 0) * 256 + buf.getD 6 0 }, 7)
  else if buf.getD 0 0 = SOCKS5_DNS then
    if buf.length < 1 + (1 + buf.getD 1 0) + 2 then .error EC_GENERAL_FAILURE
    else .ok ({ type := buf.getD 0 0,
                addr := (cstr ((buf.drop 2).take (buf.getD 1 0))).take 255,
                port := (buf.getD (2 + buf.getD 1 0) 0) * 256 +
                  buf.getD (3 + buf.getD 1 0) 0 }, 4 + buf.getD 1 0)
  else .error EC_ADDRESSTYPE_NOT_SUPPORTED

/-- `resolveSocks5Addrport`: resolve the parsed address through the
injected resolver capability; DNS failure maps to `EC_GENERAL_FAILURE`
("there's no suitable errorcode in rfc1928 for dns lookup failure"). -/
def resolveSocks5Addrport (resolve : List Nat → Nat → Nat → Option SockAddrU)
    (ap : Socks5Addrport) (stype : Nat) : Except Nat SockAddrU :=
  match resolve ap.addr ap.port stype with
  | none => .error EC_GENERAL_FAILURE
  | some sa => .ok sa

/-- `parse_socks_request_header`: version, command, reserved byte, then
the address, which is immediately resolved.  Returns `(cmd, resolved)`. -/
def parse_socks_request_header (ntop4 ntop6 : List Nat → List Nat)
    (resolve : List Nat → Nat → Nat → Option SockAddrU) (buf : List Nat) :
    Except Nat (Nat × SockAddrU) :=
  if buf.length < 3 then .error EC_GENERAL_FAILURE
  else if buf.getD 0 0 ≠ VERSION then .error EC_GENERAL_FAILURE
  else if buf.getD 1 0 ≠ CONNECT ∧ buf.getD 1 0 ≠ UDP_ASSOCIATE then
    .error EC_COMMAND_NOT_SUPPORTED
  else if buf.getD 2 0 ≠ RSV then .error EC_GENERAL_FAILURE
  else
    match parse_addrport ntop4 ntop6 (buf.drop 3) with
    | .error e => .error e
    | .ok (ap, _) =>
      let stype := if buf.getD 1 0 = CONNECT then TCP_SOCKET else UDP_SOCKET
      match resolveSocks5Addrport resolve ap stype with
      | .error e => .error e
      | .ok sa => .ok (buf.getD 1 0, sa)

/-! ## Credentials: `check_credentials` -/

/-- The parsing prefix of `check_credentials` (its bounds checks and field
extraction, before any comparison): layout `0x01, ulen, user[ulen], plen,
pass[plen]`.  Returns the raw user and pass byte fields. -/
def parseCredentials (buf : List Nat) : Option (List Nat × List Nat) :=
  let n := buf.length
  if n < 5 then none
  else if buf.getD 0 0 ≠ 1 then none
  else
    let ulen := buf.getD 1 0
    if n < 2 + ulen + 2 then none
    else
      let plen := buf.getD (2 + ulen) 0
      if n < 2 + ulen + 1 + plen then none
      else some ((buf.drop 2).take ulen, (buf.drop (2 + ulen + 1)).take plen)

/-- `check_credentials`: parse the RFC 1929 message and compare the
extracted fields against the configured credentials with `strcmp`
(the buffers are NUL-terminated at `ulen`/`plen`, so comparison sees the
bytes up to the first NUL). -/
def check_credentials (authUser authPass : List Nat) (buf : List Nat) : Nat :=
  match parseCredentials buf with
  | none => EC_GENERAL_FAILURE
  | some (user, pass) =>
    if cstr user = cstr authUser ∧ cstr pass = cstr authPass then EC_SUCCESS
    else EC_NOT_ALLOWED

/-! ## Auth policy: whitelist and method negotiation -/

/-- `is_authed`: the whitelist entry matches the client when the address
families agree and the first 4 (AF_INET, family value 2) or 16 address
bytes are `memcmp`-equal. -/
def is_authed (client authed : SockAddrU) : Bool :=
  let cmpbytes := if authed.af = 2 then 4 else 16
  authed.af == client.af &&
    client.addrBytes.take cmpbytes == authed.addrBytes.take cmpbytes

/-- `is_in_authed_list`: linear scan of the whitelist. -/
def is_in_authed_list (caddr : SockAddrU) (ips : List SockAddrU) : Bool :=
  ips.any (fun a => is_authed caddr a)

/-- `add_auth_ip`: `sblist_add` appends the client address. -/
def add_auth_ip (caddr : SockAddrU) (ips : List SockAddrU) : List SockAddrU :=
  ips ++ [caddr]

/-- The guarded insertion performed by `clientthread` after a successful
authentication, under the exclusive (writer) lock: append only if the
address is not already present.  (The lock serializes these state
transitions; we model the state transformer it protects.) -/
def rememberClient (ips : List SockAddrU) (caddr : SockAddrU) : List SockAddrU :=
  if is_in_authed_list caddr ips then ips else add_auth_ip caddr ips

/-- The scanning loop of `check_auth_method`: walk the offered method
bytes starting at `idx` while `idx < n` and methods remain.  `authUser`
is the configured credential (None = unconfigured), `authIps` the
whitelist (None = auth-once disabled). -/
def camLoop (authUser : Option (List Nat)) (authIps : Option (List SockAddrU))
    (client : SockAddrU) (buf : List Nat) (idx : Nat) : Nat → Nat
  | 0 => AM_INVALID
  | nMethods + 1 =>
    if idx < buf.length then
      if buf.getD idx 0 = AM_NO_AUTH then
        if authUser.isNone then AM_NO_AUTH
        else if (match authIps with
                 | some ips => is_in_authed_list client ips
                 | none => false) then AM_NO_AUTH
        else camLoop authUser authIps client buf (idx + 1) nMethods
      else if buf.getD idx 0 = AM_USERNAME then
        if authUser.isSome then AM_USERNAME
        else camLoop authUser authIps client buf (idx + 1) nMethods
      else camLoop authUser authIps client buf (idx + 1) nMethods
    else AM_INVALID

/-- `check_auth_method`: version byte must be 5, then `n_methods`, then
the offered method bytes, scanned in the order the client lists them. -/
def check_auth_method (authUser : Option (List Nat))
    (authIps : Option (List SockAddrU)) (client : SockAddrU)
    (buf : List Nat) : Nat :=
  if buf.getD 0 0 ≠ 5 then AM_INVALID
  else if 1 ≥ buf.length then AM_INVALID
  else camLoop authUser authIps client buf 2 (buf.getD 1 0)

/-! ## UDP framing: `extract_udp_data` and the reply header encoder -/

/-- `extract_udp_data`: `[0x00, 0x00, FRAG, atyp, addr..., port, payload]`;
both reserved bytes and FRAG must be zero.  Returns the target addrport
and the offset at which the payload starts. -/
def extract_udp_data (ntop4 ntop6 : List Nat → List Nat) (buf : List Nat) :
    Except Nat (Socks5Addrport × Nat) :=
  if buf.length < 3 then .error EC_GENERAL_FAILURE
  else if buf.getD 0 0 ≠ RSV ∨ buf.getD 1 0 ≠ RSV then .error EC_GENERAL_FAILURE
  else if buf.getD 2 0 ≠ 0 then .error EC_GENERAL_FAILURE
  else
    match parse_addrport ntop4 ntop6 (buf.drop 3) with
    | .error e => .error e
    | .ok (ap, ret) => .ok (ap, 3 + ret)

/-- The address-and-port portion of the UDP reply header that
`copy_loop_udp` rebuilds from a flow-table entry (bytes from offset 3 on:
`[atyp, addr..., port_hi, port_lo]`).  `pton4`/`pton6` model `inet_pton`;
for a DNS name the length byte is `strlen` of the stored string.  Returns
`none` where the C code aborts or bails out (unknown type, `inet_pton`
failure). -/
def encode_addrport (pton4 pton6 : List Nat → Option (List Nat))
    (ap : Socks5Addrport) : Option (List Nat) :=
  let portBytes := [ap.port / 256 % 256, ap.port % 256]
  if ap.type = SOCKS5_DNS then
    some ([SOCKS5_DNS, (cstr ap.addr).length % 256] ++ cstr ap.addr ++ portBytes)
  else if ap.type = SOCKS5_IPV4 then
    match pton4 (cstr ap.addr) with
    | none => none
    | some b => some ([SOCKS5_IPV4] ++ b ++ portBytes)
  else if ap.type = SOCKS5_IPV6 then
    match pton6 (cstr ap.addr) with
    | none => none
    | some b => some ([SOCKS5_IPV6] ++ b ++ portBytes)
  else none

/-! ## Claim-level addresses (spec §3 "Address") and the round trip -/

/-- The spec's `Address`: tagged raw bytes plus (externally) a port. -/
inductive Address
  | ipv4 (b : List Nat)
  | ipv6 (b : List Nat)
  | domain (d : List Nat)
deriving DecidableEq, Repr

/-- The `socks5_addrport` struct that the code stores for a given
claim-level address: IP addresses are kept as their `inet_ntop` string,
domain names as the C string of their bytes (this is exactly what
`parse_addrport` produces when handed the address's encoding). -/
def addrportOfAddress (ntop4 ntop6 : List Nat → List Nat) :
    Address → Nat → Socks5Addrport
  | .ipv4 b, port => { type := SOCKS5_IPV4, addr := (cstr (ntop4 b)).take 255, port }
  | .ipv6 b, port => { type := SOCKS5_IPV6, addr := (cstr (ntop6 b)).take 255, port }
  | .domain d, port => { type := SOCKS5_DNS, addr := (cstr d).take 255, port }

/-- The claim-level address denoted by a stored `socks5_addrport`:
IP strings are read back through `inet_pton`, domain strings are their
bytes. -/
def addressOfAddrport (pton4 pton6 : List Nat → Option (List Nat))
    (ap : Socks5Addrport) : Option (Address × Nat) :=
  if ap.type = SOCKS5_IPV4 then
    (pton4 (cstr ap.addr)).map (fun b => (.ipv4 b, ap.port))
  else if ap.type = SOCKS5_IPV6 then
    (pton6 (cstr ap.addr)).map (fun b => (.ipv6 b, ap.port))
  else if ap.type = SOCKS5_DNS then
    some (.domain (cstr ap.addr), ap.port)
  else none

/-- `encodeAddressInto`: the wire encoding the code emits for a
claim-level address (the `[atyp, addr..., port]` tail it rebuilds in
`copy_loop_udp`, applied to the stored form of the address). -/
def encodeAddressInto (ntop4 ntop6 : List Nat → List Nat)
    (pton4 pton6 : List Nat → Option (List Nat)) (a : Address) (port : Nat) :
    Option (List Nat) :=
  encode_addrport pton4 pton6 (addrportOfAddress ntop4 ntop6 a port)

/-! ## Session state machine: the AUTHED-state request handler -/

/-- Observable actions `clientthread` performs on and after a request in
state `SS_3_AUTHED` (lines 748–804). -/
inductive ReqStep
  | errorReply (ec : Nat)          -- `send_error(client_fd, ec)`
  | successReply (bound : SockAddrU)  -- `send_response(client_fd, EC_SUCCESS, ...)`
  | tcpRelay                        -- `copyloop`
  | udpRelay                        -- `copy_loop_udp`
  | closeTarget                     -- `close(remotefd)` / `close(fd)`
  | closeControl                    -- `close(t->client.fd)` at `breakloop`
deriving DecidableEq, Repr

/-- Outcome oracles for the socket-layer calls of the request phase:
`connectTarget` models `connect_socks_target` (error code or fd),
`udpSetup` models `udp_svc_setup`, `getsockname` the bound-address query,
`sendRespOk` whether the success reply write goes through. -/
structure ReqOracles where
  connectTarget : SockAddrU → Except Nat Nat
  udpSetup : SockAddrU → Except Nat Nat
  getsockname : Nat → Option SockAddrU
  sendRespOk : Bool

/-- The `SS_3_AUTHED` branch of `clientthread`, as the sequence of
observable actions it performs for one request buffer.  A parse or
resolution failure jumps straight to `breakloop`; only connect and
UDP-setup failures pass through `send_error`. -/
def handleAuthedRequest (ntop4 ntop6 : List Nat → List Nat)
    (resolve : List Nat → Nat → Nat → Option SockAddrU) (o : ReqOracles)
    (buf : List Nat) : List ReqStep :=
  match parse_socks_request_header ntop4 ntop6 resolve buf with
  | .error _ => [.closeControl]
  | .ok (cmd, addr) =>
    if cmd = CONNECT then
      match o.connectTarget addr with
      | .error ec => [.errorReply ec, .closeControl]
      | .ok remotefd =>
        match o.getsockname remotefd with
        | none => [.closeControl]
        | some la =>
          if o.sendRespOk then
            [.successReply la, .tcpRelay, .closeTarget, .closeControl]
          else [.closeTarget, .closeControl]
    else
      match o.udpSetup addr with
      | .error ec => [.errorReply ec, .closeControl]
      | .ok fd =>
        match o.getsockname fd with
        | none => [.closeControl]
        | some la =>
          if o.sendRespOk then
            [.successReply la, .udpRelay, .closeTarget, .closeControl]
          else [.closeTarget, .closeControl]

/-- Number of SOCKS error replies a request handling emits. -/
def countErrorReplies (steps : List ReqStep) : Nat :=
  steps.countP (fun s => match s with | .errorReply _ => true | _ => false)

/-! ## UDP relay: per-datagram step of `copy_loop_udp` -/

/-- `struct fd_socks5addr`: one flow-table entry. -/
structure FdSocks5Addr where
  fd : Nat
  addrport : Socks5Addrport
deriving DecidableEq, Repr

/-- `sblist_search` with `compare_fd_socks5addr_by_addrport`: first entry
whose addrport compares equal. -/
def searchByAddrport (l : List FdSocks5Addr) (ap : Socks5Addrport) :
    Option FdSocks5Addr :=
  l.find? (fun it => compareSocks5Addrport it.addrport ap)

/-- `sblist_search` with `compare_fd_socks5addr_by_fd`. -/
def searchByFd (l : List FdSocks5Addr) (fd : Nat) : Option FdSocks5Addr :=
  l.find? (fun it => it.fd == fd)

/-- Observable actions of the UDP relay while handling one client
datagram, in program order. -/
inductive UdpAct
  | resolveTarget (ap : Socks5Addrport)       -- `resolveSocks5Addrport`
  | newSocket (fd : Nat)                      -- `socket(..., SOCK_DGRAM, 0)`
  | insertFlow (fd : Nat) (ap : Socks5Addrport) -- `sblist_add(sock_list, &item)`
  | registerRead (fd : Nat)                   -- `kevent` EV_ADD on the new fd
  | sendPayload (fd : Nat) (payload : List Nat) -- `send(send_fd, buf+offset, n-offset, 0)`
  | sendErrTcp (ec : Nat)                     -- `send_error(tcp_fd, ...)`
  | closeFd (fd : Nat)                        -- teardown `close(item->fd)`
deriving DecidableEq, Repr

/-- Result of one datagram step: the actions performed, the flow table
afterwards (`sock_list` is mutable in the C code; this is its value when
the step ends), and whether the step jumped to `UDP_LOOP_END`,
terminating the associate session. -/
structure UdpStep where
  acts : List UdpAct
  table : List FdSocks5Addr
  terminated : Bool
deriving Repr

/-- Oracles for the socket layer inside the UDP loop: resolution of a
target addrport, whether `connect` on the fresh socket succeeds, whether
the `kevent` registration succeeds, whether the `send` succeeds, and the
fd the kernel hands out for the new socket. -/
structure UdpOracles where
  resolve : Socks5Addrport → Option SockAddrU
  connectOk : SockAddrU → Bool
  keventOk : Bool
  sendOk : Bool
  newFd : Nat

/-- The `fd == udp_fd` branch of `copy_loop_udp` (lines 514–564): deframe
the datagram, look the target up in the flow table, create/insert/register
a flow socket on a miss, then send the payload. -/
def handleClientDatagram (ntop4 ntop6 : List Nat → List Nat) (o : UdpOracles)
    (sockList : List FdSocks5Addr) (buf : List Nat) : UdpStep :=
  match extract_udp_data ntop4 ntop6 buf with
  | .error _ => { acts := [], table := sockList, terminated := true }
  | .ok (ap, offset) =>
    let payload := buf.drop offset
    match searchByAddrport sockList ap with
    | some it =>
      { acts := [.sendPayload it.fd payload], table := sockList,
        terminated := !o.sendOk }
    | none =>
      match o.resolve ap with
      | none => { acts := [.resolveTarget ap], table := sockList,
                  terminated := true }
      | some ta =>
        if o.connectOk ta then
          let fd := o.newFd
          let table' := sockList ++ [⟨fd, ap⟩]
          if o.keventOk then
            { acts := [.resolveTarget ap, .newSocket fd, .insertFlow fd ap,
                       .registerRead fd, .sendPayload fd payload],
              table := table', terminated := !o.sendOk }
          else
            { acts := [.resolveTarget ap, .newSocket fd, .insertFlow fd ap,
                       .registerRead fd],
              table := table', terminated := true }
        else
          { acts := [.resolveTarget ap, .newSocket o.newFd,
                     .sendErrTcp EC_GENERAL_FAILURE],
            table := sockList, terminated := true }

/-- The teardown at `UDP_LOOP_END`: close every flow socket in the table. -/
def udpTeardown (sockList : List FdSocks5Addr) : List UdpAct :=
  sockList.map (fun it => .closeFd it.fd)

/-- One datagram step followed, when it terminates the session, by the
`UDP_LOOP_END` teardown over the flow table the step left behind. -/
def udpStepWithTeardown (ntop4 ntop6 : List Nat → List Nat) (o : UdpOracles)
    (sockList : List FdSocks5Addr) (buf : List Nat) : List UdpAct × Bool :=
  let st := handleClientDatagram ntop4 ntop6 o sockList buf
  if st.terminated then (st.acts ++ udpTeardown st.table, true)
  else (st.acts, false)

/-! ## TCP relay: `copyloop` and `update_traffic_stats` -/

/-- Which socket a relay event concerns: `fd1` is the client side,
`fd2` the target side (`copyloop(t->client.fd, remotefd)`). -/
inductive Side
  | client
  | target
deriving DecidableEq, Repr

/-- The opposite socket (`outfd = (infd == fd1) ? fd2 : fd1`). -/
def Side.other : Side → Side
  | .client => .target
  | .target => .client

/-- One read-readiness event of the `copyloop` schedule: the side that
became readable, the bytes `read` returned (`[]` models `n <= 0`,
EOF or read error), and the successive return values of `write` while
the payload is drained. -/
structure CopyEv where
  side : Side
  data : List Nat
  writeRets : List Int

/-- Observable actions of `copyloop`.  `statUi u d` is one
`update_traffic_stats` call: under `stats_mutex` the totals become
`(u, d)` and `update_traffic_stats_ui` is invoked with exactly those
totals (the mutex makes increment and callback one atomic step). -/
inductive TcpAct
  | readAct (s : Side) (data : List Nat)
  | writeAct (s : Side) (seg : List Nat)
  | statUi (upTotal dnTotal : Nat)
deriving DecidableEq, Repr

/-- The inner `while (sent < n)` drain of `copyloop`: each `write` call
returns the next element of `rets`; a negative return aborts the loop
(`close(kq); return`).  Returns the byte segments actually written, in
order, and whether the payload was fully drained (an exhausted schedule
leaves the drain incomplete). -/
def drainWrites (payload : List Nat) : List Int → Nat → List (List Nat) × Bool
  | [], sent => if sent < payload.length then ([], false) else ([], true)
  | m :: rest, sent =>
    if sent < payload.length then
      if m < 0 then ([], false)
      else
        let seg := (payload.drop sent).take m.toNat
        let r := drainWrites payload rest (sent + m.toNat)
        (seg :: r.1, r.2)
    else ([], true)

/-- `copyloop` as a trace over a linearized schedule of read-readiness
events, threading the two global traffic counters
(`total_upload_bytes`, `total_download_bytes`).  A read of `n <= 0` or a
failed/incomplete drain ends the loop; a completed drain is followed by
`update_traffic_stats(n, 0)` (client side) or `(0, n)` (target side). -/
def copyloopRun : List CopyEv → Nat → Nat → List TcpAct
  | [], _, _ => []
  | ev :: rest, up, dn =>
    if ev.data.isEmpty then [.readAct ev.side []]
    else
      let r := drainWrites ev.data ev.writeRets 0
      let writes := r.1.map (fun s => TcpAct.writeAct ev.side.other s)
      if r.2 then
        let up' := if ev.side = .client then up + ev.data.length else up
        let dn' := if ev.side = .client then dn else dn + ev.data.length
        .readAct ev.side ev.data :: writes ++ .statUi up' dn' :: copyloopRun rest up' dn'
      else
        .readAct ev.side ev.data :: writes

/-- The `(upload_total, download_total)` pairs the UI callback observes
along a trace, in order. -/
def statList : List TcpAct → List (Nat × Nat)
  | [] => []
  | .statUi u d :: r => (u, d) :: statList r
  | _ :: r => statList r

/-- The accounting specification: after each completed event, the
counters as they should read (client reads credit upload, target reads
credit download). -/
def creditScan : List CopyEv → Nat → Nat → List (Nat × Nat)
  | [], _, _ => []
  | ev :: rest, up, dn =>
    let up' := if ev.side = .client then up + ev.data.length else up
    let dn' := if ev.side = .client then dn else dn + ev.data.length
    (up', dn') :: creditScan rest up' dn'

/-- An event that completes: the read returned data and the drain wrote
all of it. -/
def evOk (ev : CopyEv) : Bool :=
  !ev.data.isEmpty && (drainWrites ev.data ev.writeRets 0).2

/-! ## Concrete oracles used in witnesses and counterexamples -/

/-- A concrete address-to-string codec for witnesses: shift every byte up
by one (so the result is NUL-free) . -/
def wNtop : List Nat → List Nat := fun b => b.map (· + 1)

/-- The matching string-to-address codec: shift back down. -/
def wPton : List Nat → Option (List Nat) := fun s => some (s.map (· - 1))

/-- A resolver oracle that always succeeds. -/
def cResolveOk : List Nat → Nat → Nat → Option SockAddrU :=
  fun _ p _ => some ⟨2, [10, 0, 0, 1], p⟩

/-! ## Helper lemmas -/

theorem cstr_of_not_mem {l : List Nat} (h : 0 ∉ l) : cstr l = l := by
  apply List.takeWhile_eq_self_iff.mpr
  intro x hx
  have hx0 : x ≠ 0 := fun h0 => h (h0 ▸ hx)
  simpa using hx0

theorem is_authed_self (c : SockAddrU) : is_authed c c = true := by
  simp [is_authed]

/-! ## C2 — `check_credentials` byte-exactness -/

/-- C2 counterexample: with configured credentials `("a","b")`, the
offered user field `[97, 0]` (two bytes, an embedded NUL) is accepted as
`EC_SUCCESS` by `check_credentials` although it is not byte-equal to the
configured user `[97]` — the `strcmp` comparison truncates at the NUL,
so the claimed byte-exact iff fails at this input. -/
theorem c2_counterexample :
    check_credentials [97] [98] [1, 2, 97, 0, 1, 98] = EC_SUCCESS ∧
    parseCredentials [1, 2, 97, 0, 1, 98] = some ([97, 0], [98]) ∧
    ([97, 0] : List Nat) ≠ [97] := by
  refine ⟨by decide, rfl, by decide⟩

/-- C2 (amended): `check_credentials` returns `EC_SUCCESS` iff the
offered user and pass, truncated at their first NUL byte, equal the
configured user and pass likewise truncated (C-string comparison); the
comparison is byte-exact exactly when none of the four byte strings
contains an embedded NUL. -/
theorem c2_check_credentials_amended (authUser authPass buf user pass : List Nat)
    (h : parseCredentials buf = some (user, pass)) :
    (check_credentials authUser authPass buf = EC_SUCCESS ↔
      cstr user = cstr authUser ∧ cstr pass = cstr authPass) ∧
    ((0 : Nat) ∉ user → (0 : Nat) ∉ pass → (0 : Nat) ∉ authUser →
      (0 : Nat) ∉ authPass →
      (check_credentials authUser authPass buf = EC_SUCCESS ↔
        user = authUser ∧ pass = authPass)) := by
  have hc : check_credentials authUser authPass buf =
      if cstr user = cstr authUser ∧ cstr pass = cstr authPass then EC_SUCCESS
      else EC_NOT_ALLOWED := by
    unfold check_credentials
    rw [h]
  have hiff : check_credentials authUser authPass buf = EC_SUCCESS ↔
      cstr user = cstr authUser ∧ cstr pass = cstr authPass := by
    rw [hc]
    split_ifs with hx
    · simpa using hx
    · simpa [EC_SUCCESS, EC_NOT_ALLOWED] using hx
  refine ⟨hiff, fun hu hp hau hap => ?_⟩
  rw [hiff, cstr_of_not_mem hu, cstr_of_not_mem hp, cstr_of_not_mem hau,
    cstr_of_not_mem hap]

/-- C2 witness: a NUL-free credential message for user `"a"`, pass `"b"`
is accepted, via the amended theorem. -/
theorem c2_witness :
    check_credentials [97] [98] [1, 1, 97, 1, 98] = EC_SUCCESS :=
  ((c2_check_credentials_amended [97] [98] [1, 1, 97, 1, 98] [97] [98]
    rfl).2 (by decide) (by decide) (by decide) (by decide)).mpr ⟨rfl, rfl⟩

/-! ## C3 — `check_credentials` parsing bounds -/

/-- C3 counterexample: the message `[0x01, 0, 0]` (ulen = 0, plen = 0,
exactly `3 + ulen + plen` bytes, no bound exceeded) is rejected by the
parsing prefix of `check_credentials` — the code demands `n >= 5` — so
the claim that every such layout in `[0,255]` succeeds is false. -/
theorem c3_counterexample :
    parseCredentials [1, 0, 0] = none ∧
    ¬([1, 0, 0].length <
        3 + [1, 0, 0].getD 1 0 + [1, 0, 0].getD 2 0) := by
  refine ⟨rfl, by decide⟩

/-- C3 (amended): the parsing prefix of `check_credentials` succeeds
exactly on inputs starting with `0x01` that are at least 5 bytes long,
long enough to hold the user field plus one more byte
(`2 + ulen + 2 <= n`), and long enough to hold both fields
(`3 + ulen + plen <= n`).  In particular a `plen = 0` message of
exactly `3 + ulen` bytes is rejected (e.g. `[1, 0, 0]`), although no
length bound is exceeded and the input is not shorter than
`3 + ulen + plen`. -/
theorem c3_parse_credentials_amended (buf : List Nat) :
    (parseCredentials buf).isSome = true ↔
      buf.getD 0 0 = 1 ∧ 5 ≤ buf.length ∧
      2 + buf.getD 1 0 + 2 ≤ buf.length ∧
      2 + buf.getD 1 0 + 1 + buf.getD (2 + buf.getD 1 0) 0 ≤ buf.length := by
  simp only [parseCredentials]
  split_ifs with h1 h2 h3 h4
  · simp only [Option.isSome_none, Bool.false_eq_true, false_iff]
    rintro ⟨-, hb, -, -⟩
    omega
  · simp only [Option.isSome_none, Bool.false_eq_true, false_iff]
    rintro ⟨ha, -, -, -⟩
    exact h2 ha
  · simp only [Option.isSome_none, Bool.false_eq_true, false_iff]
    rintro ⟨-, -, hc, -⟩
    omega
  · simp only [Option.isSome_none, Bool.false_eq_true, false_iff]
    rintro ⟨-, -, -, hd⟩
    omega
  · simp only [Option.isSome_some, true_iff]
    refine ⟨by omega, by omega, by omega, by omega⟩

/-- C3 witness: a 5-byte message with `ulen = 1`, `plen = 0` parses. -/
theorem c3_witness : (parseCredentials [1, 1, 97, 0, 0]).isSome = true :=
  (c3_parse_credentials_amended [1, 1, 97, 0, 0]).mpr
    ⟨rfl, by decide, by decide, by decide⟩

/-! ## C7 — `rememberClient` idempotence -/

/-- C7: the check-then-insert performed under the exclusive writer lock
is idempotent — a second successful authentication from the same IP
leaves the whitelist unchanged, so two authentications from an IP not
yet whitelisted grow the list by exactly one entry overall.  (The
`pthread_rwlock_wrlock` serializes the two transitions; the theorem is
about the state transformer the lock protects.) -/
theorem c7_remember_client_idempotent (ips : List SockAddrU) (c : SockAddrU) :
    rememberClient (rememberClient ips c) c = rememberClient ips c ∧
    (is_in_authed_list c ips = false →
      (rememberClient (rememberClient ips c) c).length = ips.length + 1) := by
  have hmem : is_in_authed_list c (ips ++ [c]) = true := by
    simp [is_in_authed_list, is_authed_self]
  constructor
  · by_cases h : is_in_authed_list c ips
    · simp [rememberClient, h]
    · simp only [rememberClient, h, if_false, Bool.false_eq_true, if_neg,
        add_auth_ip]
      simp [hmem]
  · intro h
    simp [rememberClient, h, add_auth_ip, hmem]

/-- C7 witness: two authentications from `10.0.0.1` starting from an
empty whitelist leave exactly one entry. -/
theorem c7_witness :
    (rememberClient (rememberClient ([] : List SockAddrU) ⟨2, [10, 0, 0, 1], 80⟩)
      ⟨2, [10, 0, 0, 1], 80⟩).length = ([] : List SockAddrU).length + 1 :=
  (c7_remember_client_idempotent [] ⟨2, [10, 0, 0, 1], 80⟩).2 (by decide)

/-! ## C4 — method negotiation order -/

/-- The scanning loop returns the method of the first offered byte that
matches an acceptable method, in the client's listed order (with
credentials configured, the whitelist enabled and the client
whitelisted, both `AM_NO_AUTH` and `AM_USERNAME` are acceptable). -/
theorem camLoop_firstMatch (u : List Nat) (ips : List SockAddrU)
    (client : SockAddrU) (hauth : is_in_authed_list client ips = true)
    (buf : List Nat) :
    ∀ (nM idx : Nat),
      camLoop (some u) (some ips) client buf idx nM =
        match ((buf.drop idx).take nM).find?
            (fun b => b == AM_NO_AUTH || b == AM_USERNAME) with
        | some b => if b = AM_NO_AUTH then AM_NO_AUTH else AM_USERNAME
        | none => AM_INVALID := by
  intro nM
  induction nM with
  | zero => intro idx; simp [camLoop]
  | succ n ih =>
    intro idx
    by_cases hidx : idx < buf.length
    · have hdrop : buf.drop idx = buf[idx] :: buf.drop (idx + 1) :=
        List.drop_eq_getElem_cons hidx
      have hgetD : buf.getD idx 0 = buf[idx] := List.getD_eq_getElem buf 0 hidx
      rw [camLoop, if_pos hidx, hdrop, hgetD, List.take_succ_cons]
      by_cases h0 : buf[idx] = AM_NO_AUTH
      · simp [h0, hauth, List.find?, AM_NO_AUTH]
      · by_cases h2 : buf[idx] = AM_USERNAME
        · simp [h2, h0, List.find?, AM_NO_AUTH, AM_USERNAME]
        · have hskip :
              (buf[idx] == AM_NO_AUTH || buf[idx] == AM_USERNAME) = false := by
            simp [h0, h2]
          rw [if_neg h0, if_neg h2, List.find?, hskip, ih (idx + 1)]
    · rw [camLoop, if_neg hidx]
      have : buf.drop idx = [] := List.drop_eq_nil_of_le (by omega)
      simp [this]

/-- C4 counterexample: credentials configured (`user "a"`), auth-once
whitelist enabled and containing the client's IP, and the client offers
`[UsernamePassword, NoAuth]` (greeting `[5, 2, 0x02, 0x00]`): NoAuth is
offered, yet `check_auth_method` returns `AM_USERNAME`, because the
client's listed order is scanned first-match — refuting the claim that
the server's preference makes it return NoAuth for *any* position. -/
theorem c4_counterexample :
    check_auth_method (some [97]) (some [⟨2, [10, 0, 0, 1], 0⟩])
      ⟨2, [10, 0, 0, 1], 0⟩ [5, 2, 2, 0] = AM_USERNAME ∧
    [5, 2, 2, 0].getD 3 0 = AM_NO_AUTH ∧
    is_in_authed_list ⟨2, [10, 0, 0, 1], 0⟩ [⟨2, [10, 0, 0, 1], 0⟩] = true ∧
    AM_USERNAME ≠ AM_NO_AUTH := by
  decide

/-- C4 (amended): with credentials configured, the whitelist enabled and
the client's IP in it, `check_auth_method` returns the method of the
*first* offered byte (in the client's listed order, within the
`n_methods` window) that is NoAuth or UsernamePassword — so NoAuth wins
exactly when it is listed before any UsernamePassword offer, not in any
position. -/
theorem c4_check_auth_method_amended (u : List Nat) (ips : List SockAddrU)
    (client : SockAddrU) (hauth : is_in_authed_list client ips = true)
    (buf : List Nat) (hv : buf.getD 0 0 = 5) (hn : 2 ≤ buf.length) :
    check_auth_method (some u) (some ips) client buf =
      match ((buf.drop 2).take (buf.getD 1 0)).find?
          (fun b => b == AM_NO_AUTH || b == AM_USERNAME) with
      | some b => if b = AM_NO_AUTH then AM_NO_AUTH else AM_USERNAME
      | none => AM_INVALID := by
  unfold check_auth_method
  rw [if_neg (not_not_intro hv), if_neg (by omega)]
  exact camLoop_firstMatch u ips client hauth buf _ 2

/-- C4 witness: the greeting `[5, 2, 0x00, 0x02]` (NoAuth listed first)
from a whitelisted client with credentials configured yields NoAuth. -/
theorem c4_witness :
    check_auth_method (some [97]) (some [⟨2, [10, 0, 0, 1], 0⟩])
      ⟨2, [10, 0, 0, 1], 0⟩ [5, 2, 0, 2] = AM_NO_AUTH := by
  have h := c4_check_auth_method_amended [97] [⟨2, [10, 0, 0, 1], 0⟩]
    ⟨2, [10, 0, 0, 1], 0⟩ (by decide) [5, 2, 0, 2] (by decide) (by decide)
  simpa using h

/-! ## C5 — `parse_socks_request_header` acceptance -/

/-- Whether an `Except` result is a success. -/
def isOkE {α : Type} : Except Nat α → Bool
  | .ok _ => true
  | .error _ => false

/-- Well-formedness of an encoded address, following the spec's
`parseAddress` description: a known type byte with enough bytes for the
fixed-size address (4 or 16) or the length-prefixed domain name, plus
the two port bytes. -/
def specWellFormedAddr (bs : List Nat) : Prop :=
  (bs.getD 0 0 = SOCKS5_IPV4 ∧ 7 ≤ bs.length) ∨
  (bs.getD 0 0 = SOCKS5_IPV6 ∧ 19 ≤ bs.length) ∨
  (bs.getD 0 0 = SOCKS5_DNS ∧ 4 + bs.getD 1 0 ≤ bs.length)

instance (bs : List Nat) : Decidable (specWellFormedAddr bs) := by
  unfold specWellFormedAddr
  infer_instance

/-- `parse_addrport` succeeds exactly on well-formed encoded addresses. -/
theorem parse_addrport_isOk_iff (ntop4 ntop6 : List Nat → List Nat)
    (bs : List Nat) :
    isOkE (parse_addrport ntop4 ntop6 bs) = true ↔ specWellFormedAddr bs := by
  simp only [parse_addrport, specWellFormedAddr, SOCKS5_IPV4, SOCKS5_IPV6,
    SOCKS5_DNS]
  split_ifs with h1 h2 h3 h4 h5 h6 h7
  · exact iff_of_false (by simp [isOkE])
      (by rintro (⟨ha, hb⟩ | ⟨ha, hb⟩ | ⟨ha, hb⟩) <;> omega)
  · exact iff_of_false (by simp [isOkE])
      (by rintro (⟨ha, hb⟩ | ⟨ha, hb⟩ | ⟨ha, hb⟩) <;> omega)
  · exact iff_of_true rfl (Or.inr (Or.inl ⟨h2, by omega⟩))
  · exact iff_of_false (by simp [isOkE])
      (by rintro (⟨ha, hb⟩ | ⟨ha, hb⟩ | ⟨ha, hb⟩) <;> omega)
  · exact iff_of_true rfl (Or.inl ⟨h4, by omega⟩)
  · exact iff_of_false (by simp [isOkE])
      (by rintro (⟨ha, hb⟩ | ⟨ha, hb⟩ | ⟨ha, hb⟩) <;> omega)
  · exact iff_of_true rfl (Or.inr (Or.inr ⟨h6, by omega⟩))
  · exact iff_of_false (by simp [isOkE])
      (by rintro (⟨ha, hb⟩ | ⟨ha, hb⟩ | ⟨ha, hb⟩) <;> omega)

/-- Equation: too-short request headers fail with `EC_GENERAL_FAILURE`. -/
theorem psrh_err_short (ntop4 ntop6 : List Nat → List Nat)
    (resolve : List Nat → Nat → Nat → Option SockAddrU) (buf : List Nat)
    (h : buf.length < 3) :
    parse_socks_request_header ntop4 ntop6 resolve buf =
      .error EC_GENERAL_FAILURE := by
  unfold parse_socks_request_header
  rw [if_pos h]

/-- Equation: a wrong version byte fails with `EC_GENERAL_FAILURE`. -/
theorem psrh_err_version (ntop4 ntop6 : List Nat → List Nat)
    (resolve : List Nat → Nat → Nat → Option SockAddrU) (buf : List Nat)
    (h1 : ¬ buf.length < 3) (h : buf.getD 0 0 ≠ VERSION) :
    parse_socks_request_header ntop4 ntop6 resolve buf =
      .error EC_GENERAL_FAILURE := by
  unfold parse_socks_request_header
  rw [if_neg h1, if_pos h]

/-- Equation: an unsupported command fails with
`EC_COMMAND_NOT_SUPPORTED`. -/
theorem psrh_err_cmd (ntop4 ntop6 : List Nat → List Nat)
    (resolve : List Nat → Nat → Nat → Option SockAddrU) (buf : List Nat)
    (h1 : ¬ buf.length < 3) (h2 : buf.getD 0 0 = VERSION)
    (h : buf.getD 1 0 ≠ CONNECT ∧ buf.getD 1 0 ≠ UDP_ASSOCIATE) :
    parse_socks_request_header ntop4 ntop6 resolve buf =
      .error EC_COMMAND_NOT_SUPPORTED := by
  unfold parse_socks_request_header
  rw [if_neg h1, if_neg (not_not_intro h2), if_pos h]

/-- Equation: a non-zero reserved byte fails with `EC_GENERAL_FAILURE`. -/
theorem psrh_err_rsv (ntop4 ntop6 : List Nat → List Nat)
    (resolve : List Nat → Nat → Nat → Option SockAddrU) (buf : List Nat)
    (h1 : ¬ buf.length < 3) (h2 : buf.getD 0 0 = VERSION)
    (h3 : ¬ (buf.getD 1 0 ≠ CONNECT ∧ buf.getD 1 0 ≠ UDP_ASSOCIATE))
    (h : buf.getD 2 0 ≠ RSV) :
    parse_socks_request_header ntop4 ntop6 resolve buf =
      .error EC_GENERAL_FAILURE := by
  unfold parse_socks_request_header
  rw [if_neg h1, if_neg (not_not_intro h2), if_neg h3, if_pos h]

/-- Equation: an address parse failure propagates its error code. -/
theorem psrh_err_addr (ntop4 ntop6 : List Nat → List Nat)
    (resolve : List Nat → Nat → Nat → Option SockAddrU) (buf : List Nat)
    (h1 : ¬ buf.length < 3) (h2 : buf.getD 0 0 = VERSION)
    (h3 : ¬ (buf.getD 1 0 ≠ CONNECT ∧ buf.getD 1 0 ≠ UDP_ASSOCIATE))
    (h4 : ¬ buf.getD 2 0 ≠ RSV) (e : Nat)
    (hpa : parse_addrport ntop4 ntop6 (buf.drop 3) = .error e) :
    parse_socks_request_header ntop4 ntop6 resolve buf = .error e := by
  unfold parse_socks_request_header
  rw [if_neg h1, if_neg (not_not_intro h2), if_neg h3, if_neg h4]
  simp only [hpa]

/-- Equation: with every check passing and the resolver succeeding, the
request parses to its command and the resolved address. -/
theorem psrh_ok (ntop4 ntop6 : List Nat → List Nat)
    (resolve : List Nat → Nat → Nat → Option SockAddrU) (buf : List Nat)
    (h1 : ¬ buf.length < 3) (h2 : buf.getD 0 0 = VERSION)
    (h3 : ¬ (buf.getD 1 0 ≠ CONNECT ∧ buf.getD 1 0 ≠ UDP_ASSOCIATE))
    (h4 : ¬ buf.getD 2 0 ≠ RSV) (ap : Socks5Addrport) (c : Nat) (sa : SockAddrU)
    (hpa : parse_addrport ntop4 ntop6 (buf.drop 3) = .ok (ap, c))
    (hsa : resolveSocks5Addrport resolve ap
      (if buf.getD 1 0 = CONNECT then TCP_SOCKET else UDP_SOCKET) = .ok sa) :
    parse_socks_request_header ntop4 ntop6 resolve buf =
      .ok (buf.getD 1 0, sa) := by
  unfold parse_socks_request_header
  rw [if_neg h1, if_neg (not_not_intro h2), if_neg h3, if_neg h4]
  simp only [hpa, hsa]

/-- C5: `parse_socks_request_header` (with a resolver that succeeds, so
only the wire format decides) accepts exactly the byte sequences
`[0x05, 0x01 | 0x03, 0x00]` followed by a well-formed address; with the
first three bytes present, a command outside {CONNECT, UDP_ASSOCIATE}
yields `EC_COMMAND_NOT_SUPPORTED` (the version byte is checked first),
while a wrong version byte or a non-zero reserved byte yields
`EC_GENERAL_FAILURE`. -/
theorem c5_parse_request_characterization (ntop4 ntop6 : List Nat → List Nat)
    (resolve : List Nat → Nat → Nat → Option SockAddrU)
    (hres : ∀ a p st, (resolve a p st).isSome = true) (buf : List Nat) :
    (isOkE (parse_socks_request_header ntop4 ntop6 resolve buf) = true ↔
      3 ≤ buf.length ∧ buf.getD 0 0 = VERSION ∧
      (buf.getD 1 0 = CONNECT ∨ buf.getD 1 0 = UDP_ASSOCIATE) ∧
      buf.getD 2 0 = RSV ∧ specWellFormedAddr (buf.drop 3)) ∧
    (3 ≤ buf.length → buf.getD 0 0 = VERSION → buf.getD 1 0 ≠ CONNECT →
      buf.getD 1 0 ≠ UDP_ASSOCIATE →
      parse_socks_request_header ntop4 ntop6 resolve buf =
        .error EC_COMMAND_NOT_SUPPORTED) ∧
    (buf.getD 0 0 ≠ VERSION ∨ buf.length < 3 →
      parse_socks_request_header ntop4 ntop6 resolve buf =
        .error EC_GENERAL_FAILURE) ∧
    (3 ≤ buf.length → buf.getD 0 0 = VERSION →
      (buf.getD 1 0 = CONNECT ∨ buf.getD 1 0 = UDP_ASSOCIATE) →
      buf.getD 2 0 ≠ RSV →
      parse_socks_request_header ntop4 ntop6 resolve buf =
        .error EC_GENERAL_FAILURE) := by
  have hresolve : ∀ ap stype, ∃ sa,
      resolveSocks5Addrport resolve ap stype = .ok sa := by
    intro ap stype
    unfold resolveSocks5Addrport
    rcases Option.isSome_iff_exists.mp (hres ap.addr ap.port stype) with ⟨sa, hsa⟩
    exact ⟨sa, by rw [hsa]⟩
  refine ⟨⟨?_, ?_⟩, ?_, ?_, ?_⟩
  · intro hOk
    by_cases h1 : buf.length < 3
    · rw [psrh_err_short ntop4 ntop6 resolve buf h1] at hOk
      simp [isOkE] at hOk
    by_cases h2 : buf.getD 0 0 ≠ VERSION
    · rw [psrh_err_version ntop4 ntop6 resolve buf h1 h2] at hOk
      simp [isOkE] at hOk
    by_cases h3 : buf.getD 1 0 ≠ CONNECT ∧ buf.getD 1 0 ≠ UDP_ASSOCIATE
    · rw [psrh_err_cmd ntop4 ntop6 resolve buf h1 (not_not.mp h2) h3] at hOk
      simp [isOkE] at hOk
    by_cases h4 : buf.getD 2 0 ≠ RSV
    · rw [psrh_err_rsv ntop4 ntop6 resolve buf h1 (not_not.mp h2) h3 h4] at hOk
      simp [isOkE] at hOk
    cases hpa : parse_addrport ntop4 ntop6 (buf.drop 3) with
    | error e =>
      rw [psrh_err_addr ntop4 ntop6 resolve buf h1 (not_not.mp h2) h3 h4 e hpa]
        at hOk
      simp [isOkE] at hOk
    | ok v =>
      obtain ⟨ap, c⟩ := v
      have hwf : specWellFormedAddr (buf.drop 3) := by
        rw [← parse_addrport_isOk_iff ntop4 ntop6]
        simp [hpa, isOkE]
      have hcmd : buf.getD 1 0 = CONNECT ∨ buf.getD 1 0 = UDP_ASSOCIATE := by
        rcases not_and_or.mp h3 with h | h
        exacts [Or.inl (not_not.mp h), Or.inr (not_not.mp h)]
      exact ⟨by omega, not_not.mp h2, hcmd, not_not.mp h4, hwf⟩
  · rintro ⟨hA, hB, hC, hD, hE⟩
    have h1 : ¬ buf.length < 3 := by omega
    cases hpa : parse_addrport ntop4 ntop6 (buf.drop 3) with
    | error e =>
      exfalso
      have hok := (parse_addrport_isOk_iff ntop4 ntop6 (buf.drop 3)).mpr hE
      rw [hpa] at hok
      simp [isOkE] at hok
    | ok v =>
      obtain ⟨ap, c⟩ := v
      obtain ⟨sa, hsa⟩ := hresolve ap
        (if buf.getD 1 0 = CONNECT then TCP_SOCKET else UDP_SOCKET)
      rw [psrh_ok ntop4 ntop6 resolve buf h1 hB
        (fun hcon => hC.elim (fun h => hcon.1 h) (fun h => hcon.2 h))
        (not_not_intro hD) ap c sa hpa hsa]
      rfl
  · intro hn hv hc1 hc3
    exact psrh_err_cmd ntop4 ntop6 resolve buf (by omega) hv ⟨hc1, hc3⟩
  · intro hbad
    rcases hbad with hv | hn
    · by_cases hn3 : buf.length < 3
      · exact psrh_err_short ntop4 ntop6 resolve buf hn3
      · exact psrh_err_version ntop4 ntop6 resolve buf hn3 hv
    · exact psrh_err_short ntop4 ntop6 resolve buf hn
  · intro hn hv hcmd hrsv
    exact psrh_err_rsv ntop4 ntop6 resolve buf (by omega) hv
      (fun hcon => hcmd.elim (fun h => hcon.1 h) (fun h => hcon.2 h)) hrsv

/-- C5 witness: the CONNECT request `05 01 00 01 7F 00 00 01 00 50`
(IPv4 127.0.0.1:80) is accepted when resolution succeeds. -/
theorem c5_witness :
    isOkE (parse_socks_request_header wNtop wNtop cResolveOk
      [5, 1, 0, 1, 127, 0, 0, 1, 0, 80]) = true :=
  (c5_parse_request_characterization wNtop wNtop cResolveOk
    (fun _ _ _ => rfl) [5, 1, 0, 1, 127, 0, 0, 1, 0, 80]).1.mpr
    ⟨by decide, by decide, Or.inl (by decide), by decide, by decide⟩

/-! ## C1 — error replies in the AUTHED state -/

/-- Request-phase oracles that always succeed. -/
def cReqOracles : ReqOracles :=
  { connectTarget := fun _ => .ok 7
    udpSetup := fun _ => .ok 8
    getsockname := fun _ => some ⟨2, [10, 0, 0, 9], 1080⟩
    sendRespOk := true }

/-- Request-phase oracles whose connect / UDP-setup calls fail. -/
def cReqOraclesFail : ReqOracles :=
  { connectTarget := fun _ => .error EC_CONN_REFUSED
    udpSetup := fun _ => .error EC_GENERAL_FAILURE
    getsockname := fun _ => some ⟨2, [10, 0, 0, 9], 1080⟩
    sendRespOk := true }

/-- C1 counterexample: the BIND request `05 02 00 01 7F 00 00 01 00 50`
received in the AUTHED state yields the non-Success code
`EC_COMMAND_NOT_SUPPORTED`, yet `clientthread` jumps to `breakloop`
without calling `send_error`: the client receives zero error replies,
not exactly one (the socket is closed).  The same happens for version,
reserved-byte, address and resolution failures, which all take the
`ret != EC_SUCCESS → goto breakloop` path. -/
theorem c1_counterexample :
    parse_socks_request_header wNtop wNtop cResolveOk
      [5, 2, 0, 1, 127, 0, 0, 1, 0, 80] = .error EC_COMMAND_NOT_SUPPORTED ∧
    handleAuthedRequest wNtop wNtop cResolveOk cReqOracles
      [5, 2, 0, 1, 127, 0, 0, 1, 0, 80] = [.closeControl] ∧
    countErrorReplies
      (handleAuthedRequest wNtop wNtop cResolveOk cReqOracles
        [5, 2, 0, 1, 127, 0, 0, 1, 0, 80]) = 0 := by
  refine ⟨rfl, rfl, rfl⟩

/-- C1 (amended): in the AUTHED state, a request whose `connect` or
UDP-socket setup fails produces exactly one SOCKS error reply followed
by closing the control socket; a request that fails at parsing,
resolution or command validation produces *no* reply — the control
socket is simply closed. -/
theorem c1_handle_authed_request_amended (ntop4 ntop6 : List Nat → List Nat)
    (resolve : List Nat → Nat → Nat → Option SockAddrU) (o : ReqOracles)
    (buf : List Nat) :
    ((∃ e, parse_socks_request_header ntop4 ntop6 resolve buf = .error e) →
      handleAuthedRequest ntop4 ntop6 resolve o buf = [.closeControl]) ∧
    (∀ addr ec,
      parse_socks_request_header ntop4 ntop6 resolve buf = .ok (CONNECT, addr) →
      o.connectTarget addr = .error ec →
      handleAuthedRequest ntop4 ntop6 resolve o buf =
        [.errorReply ec, .closeControl]) ∧
    (∀ addr ec,
      parse_socks_request_header ntop4 ntop6 resolve buf =
        .ok (UDP_ASSOCIATE, addr) →
      o.udpSetup addr = .error ec →
      handleAuthedRequest ntop4 ntop6 resolve o buf =
        [.errorReply ec, .closeControl]) := by
  refine ⟨?_, ?_, ?_⟩
  · rintro ⟨e, he⟩
    simp only [handleAuthedRequest, he]
  · intro addr ec hp hc
    simp only [handleAuthedRequest, hp, if_true, hc]
  · intro addr ec hp hu
    simp only [handleAuthedRequest, hp]
    rw [if_neg (by decide : ¬ (UDP_ASSOCIATE = CONNECT))]
    simp only [hu]

/-- C1 witness: a CONNECT request whose target connect is refused gets
exactly the single reply `EC_CONN_REFUSED` and then the close. -/
theorem c1_witness :
    handleAuthedRequest wNtop wNtop cResolveOk cReqOraclesFail
      [5, 1, 0, 1, 127, 0, 0, 1, 0, 80] =
      [.errorReply EC_CONN_REFUSED, .closeControl] :=
  (c1_handle_authed_request_amended wNtop wNtop cResolveOk cReqOraclesFail
    [5, 1, 0, 1, 127, 0, 0, 1, 0, 80]).2.1 ⟨2, [10, 0, 0, 1], 80⟩
    EC_CONN_REFUSED rfl rfl

/-! ## C8 — UDP flow-table demultiplexing -/

/-- UDP oracles that always succeed, handing out fd 5. -/
def cUdpOracles : UdpOracles :=
  { resolve := fun _ => some ⟨2, [8, 8, 8, 8], 53⟩
    connectOk := fun _ => true
    keventOk := true
    sendOk := true
    newFd := 5 }

/-- UDP oracles whose resolution fails. -/
def cUdpOraclesNoRes : UdpOracles :=
  { resolve := fun _ => none
    connectOk := fun _ => true
    keventOk := true
    sendOk := true
    newFd := 5 }

/-- UDP oracles whose target connect fails. -/
def cUdpOraclesNoConn : UdpOracles :=
  { resolve := fun _ => some ⟨2, [8, 8, 8, 8], 53⟩
    connectOk := fun _ => false
    keventOk := true
    sendOk := true
    newFd := 5 }

/-- C8: for a successfully deframed client datagram, a flow-table hit
performs exactly one send of the payload on the found socket and leaves
the table unchanged; a miss (with resolution, connect and `kevent`
registration succeeding) resolves the target, creates a new socket,
inserts it into the table, registers it with the multiplexer, and then
performs exactly one send of the payload on it, in that order. -/
theorem c8_udp_datagram (ntop4 ntop6 : List Nat → List Nat) (o : UdpOracles)
    (sockList : List FdSocks5Addr) (buf : List Nat) (ap : Socks5Addrport)
    (offset : Nat)
    (hx : extract_udp_data ntop4 ntop6 buf = .ok (ap, offset)) :
    (∀ it, searchByAddrport sockList ap = some it →
      (handleClientDatagram ntop4 ntop6 o sockList buf).acts =
        [.sendPayload it.fd (buf.drop offset)] ∧
      (handleClientDatagram ntop4 ntop6 o sockList buf).table = sockList) ∧
    (searchByAddrport sockList ap = none → ∀ ta, o.resolve ap = some ta →
      o.connectOk ta = true → o.keventOk = true →
      (handleClientDatagram ntop4 ntop6 o sockList buf).acts =
        [.resolveTarget ap, .newSocket o.newFd, .insertFlow o.newFd ap,
         .registerRead o.newFd, .sendPayload o.newFd (buf.drop offset)] ∧
      (handleClientDatagram ntop4 ntop6 o sockList buf).table =
        sockList ++ [⟨o.newFd, ap⟩]) := by
  constructor
  · intro it hfound
    simp [handleClientDatagram, hx, hfound]
  · intro hmiss ta hta hconn hkev
    simp [handleClientDatagram, hx, hmiss, hta, hconn, hkev]

/-- C8 witness: the framed datagram `00 00 00 01 08080808 0035 "hi"`
on an empty flow table creates and registers fd 5, inserts the flow,
and sends the two payload bytes on it. -/
theorem c8_witness :
    (handleClientDatagram wNtop wNtop cUdpOracles []
      [0, 0, 0, 1, 8, 8, 8, 8, 0, 53, 104, 105]).acts =
      [.resolveTarget ⟨1, [9, 9, 9, 9], 53⟩, .newSocket 5,
       .insertFlow 5 ⟨1, [9, 9, 9, 9], 53⟩, .registerRead 5,
       .sendPayload 5 [104, 105]] ∧
    (handleClientDatagram wNtop wNtop cUdpOracles []
      [0, 0, 0, 1, 8, 8, 8, 8, 0, 53, 104, 105]).table =
      [⟨5, ⟨1, [9, 9, 9, 9], 53⟩⟩] :=
  (c8_udp_datagram wNtop wNtop cUdpOracles []
    [0, 0, 0, 1, 8, 8, 8, 8, 0, 53, 104, 105] ⟨1, [9, 9, 9, 9], 53⟩ 10
    rfl).2 rfl ⟨2, [8, 8, 8, 8], 53⟩ rfl rfl rfl

/-! ## C10 — per-flow failures terminate the whole associate -/

/-- C10: when a deframed datagram's target is not in the flow table and
its resolution fails, or resolution succeeds but connecting the fresh
target socket fails (after which `send_error` is written on the control
socket), `copy_loop_udp` jumps to `UDP_LOOP_END`: the session
terminates and every socket in the flow table is closed — the offending
datagram is not simply dropped. -/
theorem c10_udp_failure_teardown (ntop4 ntop6 : List Nat → List Nat)
    (o : UdpOracles) (sockList : List FdSocks5Addr) (buf : List Nat)
    (ap : Socks5Addrport) (offset : Nat)
    (hx : extract_udp_data ntop4 ntop6 buf = .ok (ap, offset))
    (hmiss : searchByAddrport sockList ap = none) :
    (o.resolve ap = none →
      udpStepWithTeardown ntop4 ntop6 o sockList buf =
        ([.resolveTarget ap] ++ sockList.map (fun it => .closeFd it.fd),
          true)) ∧
    (∀ ta, o.resolve ap = some ta → o.connectOk ta = false →
      udpStepWithTeardown ntop4 ntop6 o sockList buf =
        ([.resolveTarget ap, .newSocket o.newFd,
          .sendErrTcp EC_GENERAL_FAILURE] ++
          sockList.map (fun it => .closeFd it.fd), true)) := by
  constructor
  · intro hres
    simp [udpStepWithTeardown, handleClientDatagram, hx, hmiss, hres,
      udpTeardown]
  · intro ta hta hconn
    simp [udpStepWithTeardown, handleClientDatagram, hx, hmiss, hta, hconn,
      udpTeardown]

/-- C10 witness: with one existing flow (fd 4) and a datagram for an
unresolvable target, the whole session ends and fd 4 is closed. -/
theorem c10_witness :
    udpStepWithTeardown wNtop wNtop cUdpOraclesNoRes
      [⟨4, ⟨1, [3, 3, 3, 3], 70⟩⟩] [0, 0, 0, 1, 8, 8, 8, 8, 0, 53, 104, 105] =
      ([.resolveTarget ⟨1, [9, 9, 9, 9], 53⟩, .closeFd 4], true) :=
  (c10_udp_failure_teardown wNtop wNtop cUdpOraclesNoRes
    [⟨4, ⟨1, [3, 3, 3, 3], 70⟩⟩] [0, 0, 0, 1, 8, 8, 8, 8, 0, 53, 104, 105]
    ⟨1, [9, 9, 9, 9], 53⟩ 10 rfl rfl).1 rfl
/-! ## C9 — TCP relay: full writes, direction, accounting -/

/-- A completed drain writes exactly the remaining payload, in order:
the concatenation of the emitted segments is `payload.drop sent`. -/
theorem drainWrites_join (payload : List Nat) :
    ∀ (rets : List Int) (sent : Nat),
      (drainWrites payload rets sent).2 = true →
      ((drainWrites payload rets sent).1).flatten = payload.drop sent := by
  intro rets
  induction rets with
  | nil =>
    intro sent h
    by_cases hs : sent < payload.length
    · simp [drainWrites, hs] at h
    · simp [drainWrites, hs, List.drop_eq_nil_of_le (le_of_not_lt hs)]
  | cons m rest ih =>
    intro sent h
    by_cases hs : sent < payload.length
    · by_cases hm : m < 0
      · simp [drainWrites, hs, hm] at h
      · simp only [drainWrites, if_pos hs, if_neg hm] at h ⊢
        rw [List.flatten_cons, ih _ h, ← List.drop_drop]
        exact List.take_append_drop _ _
    · simp [drainWrites, hs, List.drop_eq_nil_of_le (le_of_not_lt hs)]

/-- Write actions never contribute UI observations. -/
theorem statList_writes (s : Side) :
    ∀ (segs : List (List Nat)) (l : List TcpAct),
      statList (segs.map (fun g => TcpAct.writeAct s g) ++ l) = statList l := by
  intro segs
  induction segs with
  | nil => intro l; simp
  | cons g rest ih => intro l; simp [statList, ih]

/-- The UI observations of one completed event block: the read and the
writes contribute nothing; the single counter update contributes its
totals. -/
theorem statList_block (s : Side) (d : List Nat) (segs : List (List Nat))
    (u v : Nat) (l : List TcpAct) :
    statList ((TcpAct.readAct s d ::
        segs.map (fun g => TcpAct.writeAct s.other g)) ++
      (TcpAct.statUi u v :: l)) = (u, v) :: statList l := by
  rw [List.cons_append]
  show statList (segs.map (fun g => TcpAct.writeAct s.other g) ++
    (TcpAct.statUi u v :: l)) = _
  rw [statList_writes]
  rfl

/-- An aborted event block (read followed only by writes) contributes no
UI observation. -/
theorem statList_read_writes (s : Side) (d : List Nat)
    (segs : List (List Nat)) :
    statList (TcpAct.readAct s d ::
      segs.map (fun g => TcpAct.writeAct s.other g)) = [] := by
  show statList (segs.map (fun g => TcpAct.writeAct s.other g)) = []
  have h := statList_writes s.other segs []
  rw [List.append_nil] at h
  rw [h]
  rfl

/-- The observed counter pairs are monotone from any starting totals. -/
theorem copyloopRun_stats_chain (events : List CopyEv) :
    ∀ up dn, List.Chain' (fun p q : Nat × Nat => p.1 ≤ q.1 ∧ p.2 ≤ q.2)
      ((up, dn) :: statList (copyloopRun events up dn)) := by
  induction events with
  | nil => intro up dn; simp [copyloopRun, statList]
  | cons ev rest ih =>
    intro up dn
    by_cases hd : ev.data.isEmpty = true
    · simp [copyloopRun, hd, statList]
    · rw [copyloopRun, if_neg hd]
      by_cases hr : (drainWrites ev.data ev.writeRets 0).2 = true
      · rw [if_pos hr, statList_block]
        refine List.chain'_cons.mpr ⟨⟨?_, ?_⟩, ih _ _⟩ <;> split_ifs <;> omega
      · rw [if_neg hr, statList_read_writes]
        simp

/-- With every event completing, the UI observations are exactly the
accounting scan. -/
theorem copyloopRun_statList_eq (events : List CopyEv) :
    ∀ up dn, (∀ ev ∈ events, evOk ev = true) →
      statList (copyloopRun events up dn) = creditScan events up dn := by
  induction events with
  | nil => intro up dn _; simp [copyloopRun, statList, creditScan]
  | cons ev rest ih =>
    intro up dn hall
    have hev := hall ev (List.mem_cons_self _ _)
    have hrest : ∀ e ∈ rest, evOk e = true :=
      fun e he => hall e (List.mem_cons_of_mem _ he)
    rw [evOk, Bool.and_eq_true] at hev
    obtain ⟨h1, h2⟩ := hev
    have hne : ¬ ev.data.isEmpty = true := fun hcon => by
      rw [hcon] at h1
      exact absurd h1 (by decide)
    rw [copyloopRun, if_neg hne, if_pos h2, statList_block, creditScan]
    exact congrArg _ (ih _ _ hrest)

/-- C9: (1) each completed drain writes the payload of the read in full
and in order (the written segments concatenate to the payload); (2) the
trace of a completed event is its read, then its writes — all directed
to the opposite socket — then the atomic counter update, before any
later read; (3) the `(upload, download)` totals the UI callback
observes are monotonically non-decreasing; (4) when every event
completes, those totals are exactly the accounting scan, crediting
client-side reads to upload and target-side reads to download. -/
theorem c9_copyloop_correct :
    (∀ (payload : List Nat) (rets : List Int),
      (drainWrites payload rets 0).2 = true →
      ((drainWrites payload rets 0).1).flatten = payload) ∧
    (∀ (ev : CopyEv) (rest : List CopyEv) (up dn : Nat),
      ¬ ev.data.isEmpty = true →
      (drainWrites ev.data ev.writeRets 0).2 = true →
      copyloopRun (ev :: rest) up dn =
        (TcpAct.readAct ev.side ev.data ::
          (drainWrites ev.data ev.writeRets 0).1.map
            (fun s => TcpAct.writeAct ev.side.other s)) ++
          (TcpAct.statUi (if ev.side = .client then up + ev.data.length else up)
              (if ev.side = .client then dn else dn + ev.data.length) ::
          copyloopRun rest
            (if ev.side = .client then up + ev.data.length else up)
            (if ev.side = .client then dn else dn + ev.data.length))) ∧
    (∀ (events : List CopyEv) (up dn : Nat),
      List.Chain' (fun p q : Nat × Nat => p.1 ≤ q.1 ∧ p.2 ≤ q.2)
        ((up, dn) :: statList (copyloopRun events up dn))) ∧
    (∀ (events : List CopyEv) (up dn : Nat),
      (∀ ev ∈ events, evOk ev = true) →
      statList (copyloopRun events up dn) = creditScan events up dn) := by
  refine ⟨?_, ?_, copyloopRun_stats_chain, copyloopRun_statList_eq⟩
  · intro payload rets h
    rw [drainWrites_join payload rets 0 h, List.drop_zero]
  · intro ev rest up dn hne hdr
    rw [copyloopRun, if_neg hne, if_pos hdr]

/-- C9 witness: a concrete two-event schedule (client reads `[1,2]`,
target reads `[7]`) satisfies the drain-join property and the
accounting equality. -/
theorem c9_witness :
    ((drainWrites [1, 2, 3] [2, 1] 0).1).flatten = [1, 2, 3] ∧
    statList (copyloopRun
      [⟨Side.client, [1, 2], [2]⟩, ⟨Side.target, [7], [1]⟩] 0 0) =
      creditScan [⟨Side.client, [1, 2], [2]⟩, ⟨Side.target, [7], [1]⟩] 0 0 :=
  ⟨c9_copyloop_correct.1 [1, 2, 3] [2, 1] (by decide),
   c9_copyloop_correct.2.2.2
     [⟨Side.client, [1, 2], [2]⟩, ⟨Side.target, [7], [1]⟩] 0 0 (by decide)⟩

/-! ## C6 — address encode/parse round trip -/

/-- Well-formedness of a claim-level address: IPv4 is 4 bytes, IPv6 is
16 bytes, a domain name is at most 255 bytes; NUL-freeness of the
domain is the amendment the counterexample forces. -/
def wellFormedAddress : Address → Prop
  | .ipv4 b => b.length = 4
  | .ipv6 b => b.length = 16
  | .domain d => d.length ≤ 255 ∧ (0 : Nat) ∉ d

instance (a : Address) : Decidable (wellFormedAddress a) := by
  cases a with
  | ipv4 b => exact inferInstanceAs (Decidable (b.length = 4))
  | ipv6 b => exact inferInstanceAs (Decidable (b.length = 16))
  | domain d =>
    exact inferInstanceAs (Decidable (d.length ≤ 255 ∧ (0 : Nat) ∉ d))

theorem list_shape_4 {b : List Nat} (h : b.length = 4) :
    ∃ x0 x1 x2 x3, b = [x0, x1, x2, x3] := by
  rcases b with _ | ⟨x0, _ | ⟨x1, _ | ⟨x2, _ | ⟨x3, _ | ⟨x4, t⟩⟩⟩⟩⟩ <;>
    simp only [List.length_cons, List.length_nil] at h <;>
    first
      | exact ⟨_, _, _, _, rfl⟩
      | omega

theorem list_shape_16 {b : List Nat} (h : b.length = 16) :
    ∃ x0 x1 x2 x3 x4 x5 x6 x7 x8 x9 x10 x11 x12 x13 x14 x15,
      b = [x0, x1, x2, x3, x4, x5, x6, x7, x8, x9, x10, x11, x12, x13, x14,
        x15] := by
  rcases b with _ | ⟨x0, _ | ⟨x1, _ | ⟨x2, _ | ⟨x3, _ | ⟨x4, _ | ⟨x5, _ |
    ⟨x6, _ | ⟨x7, _ | ⟨x8, _ | ⟨x9, _ | ⟨x10, _ | ⟨x11, _ | ⟨x12, _ |
    ⟨x13, _ | ⟨x14, _ | ⟨x15, _ | ⟨x16, t⟩⟩⟩⟩⟩⟩⟩⟩⟩⟩⟩⟩⟩⟩⟩⟩⟩ <;>
    simp only [List.length_cons, List.length_nil] at h <;>
    first
      | exact ⟨_, _, _, _, _, _, _, _, _, _, _, _, _, _, _, _, rfl⟩
      | omega

/-- C6 counterexample: the well-formed Address `DomainName [97, 0, 98]`
(three bytes, within the 255 bound) does not round-trip: the encoder
emits `strlen`-truncated bytes `[3, 1, 97]` plus the port, and parsing
that yields `DomainName [97]` — a different address.  The claimed
identity fails on domain names with an embedded NUL byte. -/
theorem c6_counterexample :
    encodeAddressInto wNtop wNtop wPton wPton (.domain [97, 0, 98]) 80 =
      some [3, 1, 97, 0, 80] ∧
    parse_addrport wNtop wNtop [3, 1, 97, 0, 80] = .ok (⟨3, [97], 80⟩, 5) ∧
    addressOfAddrport wPton wPton ⟨3, [97], 80⟩ =
      some (.domain [97], 80) ∧
    (Address.domain [97] ≠ Address.domain [97, 0, 98]) ∧
    [97, 0, 98].length ≤ 255 := by
  refine ⟨rfl, rfl, rfl, by decide, by decide⟩

/-- C6 (amended): for every well-formed Address whose domain name (when
it is one) contains no NUL byte, and any port below 2^16, parsing the
encoding yields the same address back — same tag, same address bytes,
same port — provided the `inet_ntop`/`inet_pton` capabilities are
mutually inverse, NUL-free and within the 255-byte buffer (true of
libc). -/
theorem c6_roundtrip_amended (ntop4 ntop6 : List Nat → List Nat)
    (pton4 pton6 : List Nat → Option (List Nat))
    (H4 : ∀ b, b.length = 4 →
      (0 : Nat) ∉ ntop4 b ∧ (ntop4 b).length ≤ 255 ∧ pton4 (ntop4 b) = some b)
    (H6 : ∀ b, b.length = 16 →
      (0 : Nat) ∉ ntop6 b ∧ (ntop6 b).length ≤ 255 ∧ pton6 (ntop6 b) = some b)
    (a : Address) (port : Nat) (hport : port < 65536)
    (ha : wellFormedAddress a) :
    ∃ enc, encodeAddressInto ntop4 ntop6 pton4 pton6 a port = some enc ∧
      parse_addrport ntop4 ntop6 enc =
        .ok (addrportOfAddress ntop4 ntop6 a port, enc.length) ∧
      addressOfAddrport pton4 pton6 (addrportOfAddress ntop4 ntop6 a port) =
        some (a, port) := by
  have hp : port / 256 % 256 * 256 + port % 256 = port := by omega
  cases a with
  | ipv4 b =>
    obtain ⟨x0, x1, x2, x3, rfl⟩ := list_shape_4 ha
    obtain ⟨hz, hlen, hpt⟩ := H4 [x0, x1, x2, x3] rfl
    have hcstr : cstr (ntop4 [x0, x1, x2, x3]) = ntop4 [x0, x1, x2, x3] :=
      cstr_of_not_mem hz
    have htk : (cstr (ntop4 [x0, x1, x2, x3])).take 255 =
        ntop4 [x0, x1, x2, x3] := by
      rw [hcstr]
      exact List.take_of_length_le hlen
    refine ⟨[SOCKS5_IPV4] ++ [x0, x1, x2, x3] ++
      [port / 256 % 256, port % 256], ?_, ?_, ?_⟩
    · show encode_addrport pton4 pton6
        ⟨SOCKS5_IPV4, (cstr (ntop4 [x0, x1, x2, x3])).take 255, port⟩ = _
      unfold encode_addrport
      rw [htk, hcstr, hpt]
      rfl
    · have h1 : parse_addrport ntop4 ntop6
          ([SOCKS5_IPV4] ++ [x0, x1, x2, x3] ++
            [port / 256 % 256, port % 256]) =
          .ok (⟨SOCKS5_IPV4, (cstr (ntop4 [x0, x1, x2, x3])).take 255,
            port / 256 % 256 * 256 + port % 256⟩, 7) := rfl
      rw [h1, hp]
      rfl
    · show addressOfAddrport pton4 pton6
        ⟨SOCKS5_IPV4, (cstr (ntop4 [x0, x1, x2, x3])).take 255, port⟩ = _
      unfold addressOfAddrport
      rw [htk, hcstr, hpt]
      rfl
  | ipv6 b =>
    obtain ⟨x0, x1, x2, x3, x4, x5, x6, x7, x8, x9, x10, x11, x12, x13, x14,
      x15, rfl⟩ := list_shape_16 ha
    obtain ⟨hz, hlen, hpt⟩ := H6
      [x0, x1, x2, x3, x4, x5, x6, x7, x8, x9, x10, x11, x12, x13, x14, x15]
      rfl
    have hcstr : cstr (ntop6 [x0, x1, x2, x3, x4, x5, x6, x7, x8, x9, x10,
        x11, x12, x13, x14, x15]) = ntop6 [x0, x1, x2, x3, x4, x5, x6, x7,
        x8, x9, x10, x11, x12, x13, x14, x15] := cstr_of_not_mem hz
    have htk : (cstr (ntop6 [x0, x1, x2, x3, x4, x5, x6, x7, x8, x9, x10,
        x11, x12, x13, x14, x15])).take 255 = ntop6 [x0, x1, x2, x3, x4, x5,
        x6, x7, x8, x9, x10, x11, x12, x13, x14, x15] := by
      rw [hcstr]
      exact List.take_of_length_le hlen
    refine ⟨[SOCKS5_IPV6] ++ [x0, x1, x2, x3, x4, x5, x6, x7, x8, x9, x10,
      x11, x12, x13, x14, x15] ++ [port / 256 % 256, port % 256], ?_, ?_, ?_⟩
    · show encode_addrport pton4 pton6
        ⟨SOCKS5_IPV6, (cstr (ntop6 [x0, x1, x2, x3, x4, x5, x6, x7, x8, x9,
          x10, x11, x12, x13, x14, x15])).take 255, port⟩ = _
      unfold encode_addrport
      rw [htk, hcstr, hpt]
      rfl
    · have h1 : parse_addrport ntop4 ntop6
          ([SOCKS5_IPV6] ++ [x0, x1, x2, x3, x4, x5, x6, x7, x8, x9, x10,
            x11, x12, x13, x14, x15] ++ [port / 256 % 256, port % 256]) =
          .ok (⟨SOCKS5_IPV6, (cstr (ntop6 [x0, x1, x2, x3, x4, x5, x6, x7,
            x8, x9, x10, x11, x12, x13, x14, x15])).take 255,
            port / 256 % 256 * 256 + port % 256⟩, 19) := rfl
      rw [h1, hp]
      rfl
    · show addressOfAddrport pton4 pton6
        ⟨SOCKS5_IPV6, (cstr (ntop6 [x0, x1, x2, x3, x4, x5, x6, x7, x8, x9,
          x10, x11, x12, x13, x14, x15])).take 255, port⟩ = _
      unfold addressOfAddrport
      rw [htk, hcstr, hpt]
      rfl
  | domain d =>
    obtain ⟨hd255, hdz⟩ := ha
    have hcd : cstr d = d := cstr_of_not_mem hdz
    have htd : (cstr d).take 255 = d := by
      rw [hcd]
      exact List.take_of_length_le hd255
    have e1 : cstr ((cstr d).take 255) = d := by rw [htd]; exact hcd
    have hlm : d.length % 256 = d.length := Nat.mod_eq_of_lt (by omega)
    refine ⟨SOCKS5_DNS :: d.length ::
      (d ++ [port / 256 % 256, port % 256]), ?_, ?_, ?_⟩
    · show encode_addrport pton4 pton6 ⟨SOCKS5_DNS, (cstr d).take 255, port⟩
        = _
      unfold encode_addrport
      rw [e1, hlm]
      rfl
    · have hL : (SOCKS5_DNS :: d.length ::
          (d ++ [port / 256 % 256, port % 256])).length = 4 + d.length := by
        simp only [List.length_cons, List.length_append, List.length_nil]
        omega
      have hg1 : (SOCKS5_DNS :: d.length ::
          (d ++ [port / 256 % 256, port % 256])).getD (2 + d.length) 0 =
          port / 256 % 256 := by
        rw [show 2 + d.length = 1 + d.length + 1 from by omega,
          List.getD_cons_succ,
          show 1 + d.length = d.length + 1 from by omega,
          List.getD_cons_succ,
          List.getD_append_right d _ 0 d.length (le_refl _), Nat.sub_self]
        rfl
      have hg2 : (SOCKS5_DNS :: d.length ::
          (d ++ [port / 256 % 256, port % 256])).getD (3 + d.length) 0 =
          port % 256 := by
        rw [show 3 + d.length = 2 + d.length + 1 from by omega,
          List.getD_cons_succ,
          show 2 + d.length = 1 + d.length + 1 from by omega,
          List.getD_cons_succ,
          List.getD_append_right d _ 0 (1 + d.length) (by omega),
          show 1 + d.length - d.length = 1 from by omega]
        rfl
      show parse_addrport ntop4 ntop6 (SOCKS5_DNS :: d.length ::
          (d ++ [port / 256 % 256, port % 256])) =
        .ok (⟨SOCKS5_DNS, (cstr d).take 255, port⟩, (SOCKS5_DNS :: d.length ::
          (d ++ [port / 256 % 256, port % 256])).length)
      unfold parse_addrport
      rw [hL,
        show (SOCKS5_DNS :: d.length ::
          (d ++ [port / 256 % 256, port % 256])).getD 1 0 = d.length from rfl,
        if_neg (show ¬ (4 + d.length < 2) from by omega),
        if_neg (show ¬ (4 + d.length < 1 + (1 + d.length) + 2) from by omega),
        show (SOCKS5_DNS :: d.length ::
          (d ++ [port / 256 % 256, port % 256])).drop 2 =
          d ++ [port / 256 % 256, port % 256] from rfl,
        List.take_left, hg1, hg2, hp]
      rfl
    · show addressOfAddrport pton4 pton6 ⟨SOCKS5_DNS, (cstr d).take 255, port⟩
        = _
      unfold addressOfAddrport
      rw [e1]
      rfl

/-- C6 witness: the IPv4 address `127.0.0.1` with port 80 round-trips
under a concrete inverse codec pair. -/
theorem c6_witness :
    ∃ enc, encodeAddressInto wNtop wNtop wPton wPton (.ipv4 [127, 0, 0, 1]) 80
        = some enc ∧
      parse_addrport wNtop wNtop enc =
        .ok (addrportOfAddress wNtop wNtop (.ipv4 [127, 0, 0, 1]) 80,
          enc.length) ∧
      addressOfAddrport wPton wPton
        (addrportOfAddress wNtop wNtop (.ipv4 [127, 0, 0, 1]) 80) =
        some (.ipv4 [127, 0, 0, 1], 80) :=
  c6_roundtrip_amended wNtop wNtop wPton wPton
    (fun b hb => ⟨by simp [wNtop],
      by simp only [wNtop, List.length_map, hb]; omega,
      by
        simp only [wNtop, wPton, List.map_map, Option.some.injEq]
        have hcomp : ((fun x : Nat => x - 1) ∘ fun x : Nat => x + 1) = id := by
          funext x
          simp
        rw [hcomp, List.map_id]⟩)
    (fun b hb => ⟨by simp [wNtop],
      by simp only [wNtop, List.length_map, hb]; omega,
      by
        simp only [wNtop, wPton, List.map_map, Option.some.injEq]
        have hcomp : ((fun x : Nat => x - 1) ∘ fun x : Nat => x + 1) = id := by
          funext x
          simp
        rw [hcomp, List.map_id]⟩)
    (.ipv4 [127, 0, 0, 1]) 80 (by decide) (by decide)

end MicroSocks
